import Mathlib

/-!
Verification of the Langchain Jenkins agent repository.

Shallow embedding of the repository's Python sources:
  - jenkins_tool.py   (CI operations, keyword router, error analyzer)
  - code_indexer.py   (zip extraction + chunking + Chroma store rebuild)
  - agent_runner.py   (retrieval tool input adapter)

Text is modelled as List Char.  Python string operations (lower, strip,
the substring test of the in operator, str.split, slicing) are embedded
as executable functions on List Char with the same semantics for the
inputs that arise here (ASCII).  The HTTP layer is modelled as an oracle
from requests to either a response or a raised-exception message; every
embedded CI function also returns the list of requests it issued, so
that claims about the absence of network calls are statable.
-/

/-- Text, modelled as a list of characters. -/
abbrev Str : Type := List Char

/-- needle is a prefix of hay (Python str.startswith on lists). -/
def startsWithL : Str → Str → Bool
  | [], _ => true
  | _ :: _, [] => false
  | a :: as, b :: bs => (a == b) && startsWithL as bs

/-- Python substring containment: needle in hay. -/
def containsSub (needle : Str) : Str → Bool
  | [] => needle.isEmpty
  | c :: rest => startsWithL needle (c :: rest) || containsSub needle rest

/-- s ends with suffix (Python str.endswith). -/
def endsWithL (suffix s : Str) : Bool :=
  startsWithL suffix.reverse s.reverse

/-- Python str.lower (ASCII). -/
def pyLower (s : Str) : Str := s.map Char.toLower

/-- Python str.strip : drop leading and trailing whitespace. -/
def pyStrip (s : Str) : Str :=
  ((s.dropWhile Char.isWhitespace).reverse.dropWhile Char.isWhitespace).reverse

/-- Index of the first occurrence of sep in s (Python str.find), if any. -/
def findSub (sep : Str) : Str → Option Nat
  | [] => if sep.isEmpty then some 0 else none
  | c :: rest =>
      if startsWithL sep (c :: rest) then some 0
      else (findSub sep rest).map Nat.succ

theorem startsWithL_length {p l : Str} (h : startsWithL p l = true) :
    p.length ≤ l.length := by
  induction p generalizing l with
  | nil => simp
  | cons a as ih =>
    cases l with
    | nil => simp [startsWithL] at h
    | cons b bs =>
      simp only [startsWithL, Bool.and_eq_true] at h
      simpa using ih h.2

theorem findSub_bound {sep s : Str} {i : Nat} (hsep : sep ≠ [])
    (h : findSub sep s = some i) : i + sep.length ≤ s.length := by
  induction s generalizing i with
  | nil =>
    cases sep with
    | nil => exact absurd rfl hsep
    | cons a as => simp [findSub] at h
  | cons c rest ih =>
    simp only [findSub] at h
    split at h
    · have hb := startsWithL_length (by assumption)
      simp only [Option.some.injEq] at h
      omega
    · cases hrest : findSub sep rest with
      | none => rw [hrest] at h; simp at h
      | some j =>
        rw [hrest] at h
        simp at h
        have := ih hrest
        simp only [List.length_cons]
        omega

/-- Python str.split(sep) for a non-empty separator; s.split with an empty
separator raises ValueError in Python and is never used by the sources,
so it is given the harmless value [s] here. -/
def pysplit (sep s : Str) : List Str :=
  if hsep : sep.isEmpty then [s]
  else
    match hf : findSub sep s with
    | none => [s]
    | some i => s.take i :: pysplit sep (s.drop (i + sep.length))
termination_by s.length
decreasing_by
  simp only [List.isEmpty_iff] at hsep
  have hb := findSub_bound hsep hf
  have hpos : 1 ≤ sep.length := by
    cases sep with
    | nil => exact absurd rfl hsep
    | cons a as => simp
  simp only [List.length_drop]
  omega

/-- Python str.split(sep, 1): split at the first occurrence only. -/
def pysplit1 (sep s : Str) : List Str :=
  match findSub sep s with
  | none => [s]
  | some i => [s.take i, s.drop (i + sep.length)]

/-! ## jenkins_tool.py : configuration, HTTP model -/

/-- Module-level configuration of jenkins_tool.py: JENKINS_URL
(with its default), JENKINS_USERNAME and JENKINS_API_TOKEN as read from
the environment (none = unset variable). -/
structure Creds where
  baseUrl : Str
  username : Option Str
  apiToken : Option Str
deriving DecidableEq

/-- Python truthiness check all([JENKINS_USERNAME, JENKINS_API_TOKEN]):
both variables set and non-empty. -/
def Creds.configured (c : Creds) : Bool :=
  (match c.username with
   | some u => !u.isEmpty
   | none => false) &&
  (match c.apiToken with
   | some t => !t.isEmpty
   | none => false)

inductive Method where
  | get
  | post
deriving DecidableEq

/-- An HTTP request issued through the requests library.  Authorization
headers carry no information beyond the credentials already modelled in
Creds and are elided. -/
structure Request where
  method : Method
  url : Str
  body : Option Str
deriving DecidableEq

/-- A remote HTTP response.  response.json() is modelled pre-parsed:
jsonResult and jsonNumber are the result and number fields of the
last-build JSON (none = field absent), already rendered as text the way
an f-string would render them. -/
structure HttpResponse where
  status : Nat
  text : Str
  jsonResult : Option Str
  jsonNumber : Option Str
deriving DecidableEq

/-- The network: maps a request to a response, or to the message of the
exception the requests call raised (the string the except-branches
interpolate as str(e)). -/
def Net : Type := Request → Except Str HttpResponse

/-- Outcome of a Python call: a returned string, or an uncaught
exception. -/
inductive PyOutcome where
  | ret (s : Str)
  | raised
deriving DecidableEq

def liftRes (r : Str × List Request) : PyOutcome × List Request :=
  (PyOutcome.ret r.1, r.2)

/-! ## jenkins_tool.py : the five CI operations

Each function returns its result text together with the list of HTTP
requests it attempted, so that the absence of network traffic is a
provable statement. -/

/-- create_jenkins_job (jenkins_tool.py lines 20-41). -/
def create_jenkins_job (job_name job_config : Str) (cfg : Creds) (net : Net) :
    Str × List Request :=
  if !cfg.configured then
    ("Jenkins credentials not configured. Please set JENKINS_USERNAME and JENKINS_API_TOKEN.".toList, [])
  else
    let req : Request :=
      ⟨Method.post, cfg.baseUrl ++ "/createItem?name=".toList ++ job_name, some job_config⟩
    match net req with
    | Except.error e =>
        ("Error creating job '".toList ++ job_name ++ "': ".toList ++ e, [req])
    | Except.ok resp =>
        if resp.status == 200 then
          ("Jenkins job '".toList ++ job_name ++ "' created successfully.".toList, [req])
        else if resp.status == 400 then
          ("Invalid job configuration for '".toList ++ job_name ++ "'.".toList, [req])
        else
          ("Failed to create job '".toList ++ job_name ++ "'. Status: ".toList
            ++ (toString resp.status).toList, [req])

/-- trigger_jenkins_job (jenkins_tool.py lines 43-65). -/
def trigger_jenkins_job (job_name : Str) (cfg : Creds) (net : Net) :
    Str × List Request :=
  if !cfg.configured then
    ("Jenkins credentials not configured. Please set JENKINS_USERNAME and JENKINS_API_TOKEN.".toList, [])
  else
    let req : Request :=
      ⟨Method.post, cfg.baseUrl ++ "/job/".toList ++ job_name ++ "/build".toList, none⟩
    match net req with
    | Except.error e =>
        ("Error triggering job '".toList ++ job_name ++ "': ".toList ++ e, [req])
    | Except.ok resp =>
        if resp.status == 201 then
          ("Jenkins job '".toList ++ job_name ++ "' triggered successfully.".toList, [req])
        else if resp.status == 403 then
          ("Permission denied. Check your Jenkins credentials and token.".toList, [req])
        else if resp.status == 404 then
          ("Job '".toList ++ job_name ++ "' not found on Jenkins server.".toList, [req])
        else
          ("Failed to trigger Jenkins job '".toList ++ job_name ++ "'. Status code: ".toList
            ++ (toString resp.status).toList, [req])

/-- get_job_status (jenkins_tool.py lines 67-90). -/
def get_job_status (job_name : Str) (cfg : Creds) (net : Net) :
    Str × List Request :=
  if !cfg.configured then
    ("Jenkins credentials not configured.".toList, [])
  else
    let req : Request :=
      ⟨Method.get, cfg.baseUrl ++ "/job/".toList ++ job_name ++ "/lastBuild/api/json".toList, none⟩
    match net req with
    | Except.error e =>
        ("Error getting job status: ".toList ++ e, [req])
    | Except.ok resp =>
        if resp.status == 200 then
          ("Job '".toList ++ job_name ++ "' build #".toList
            ++ (resp.jsonNumber.getD "N/A".toList)
            ++ ": ".toList ++ (resp.jsonResult.getD "IN_PROGRESS".toList), [req])
        else if resp.status == 404 then
          ("Job '".toList ++ job_name ++ "' not found or no builds exist.".toList, [req])
        else
          ("Failed to get job status. Status code: ".toList
            ++ (toString resp.status).toList, [req])

/-- get_build_logs (jenkins_tool.py lines 92-118). -/
def get_build_logs (job_name : Str) (build_number : Option Nat) (cfg : Creds) (net : Net) :
    Str × List Request :=
  if !cfg.configured then
    ("Jenkins credentials not configured.".toList, [])
  else
    let url : Str :=
      match build_number with
      | none => cfg.baseUrl ++ "/job/".toList ++ job_name ++ "/lastBuild/consoleText".toList
      | some n =>
          cfg.baseUrl ++ "/job/".toList ++ job_name ++ "/".toList
            ++ (toString n).toList ++ "/consoleText".toList
    let req : Request := ⟨Method.get, url, none⟩
    match net req with
    | Except.error e =>
        ("Error getting build logs: ".toList ++ e, [req])
    | Except.ok resp =>
        if resp.status == 200 then
          let logs : Str :=
            if 2000 < resp.text.length then
              resp.text.take 2000 ++ "\n... (truncated)".toList
            else resp.text
          ("Build logs for '".toList ++ job_name ++ "':\n".toList ++ logs, [req])
        else if resp.status == 404 then
          ("Build logs not found for '".toList ++ job_name ++ "'.".toList, [req])
        else
          ("Failed to get build logs. Status code: ".toList
            ++ (toString resp.status).toList, [req])

/-! ## jenkins_tool.py : error analyzer -/

/-- The fixed category-to-substring table of analyze_build_errors. -/
def error_patterns : List (Str × List Str) :=
  [("Compilation Error".toList,
      ["error:".toList, "Error:".toList, "compilation failed".toList]),
   ("Dependency Issue".toList,
      ["ModuleNotFoundError".toList, "ImportError".toList, "npm ERR".toList, "pip install".toList]),
   ("Permission Error".toList,
      ["Permission denied".toList, "access denied".toList, "EACCES".toList]),
   ("Network Error".toList,
      ["Connection refused".toList, "timeout".toList, "network error".toList]),
   ("Build Tool Error".toList,
      ["maven".toList, "gradle".toList, "npm".toList, "yarn".toList]),
   ("Test Failure".toList,
      ["FAILED".toList, "AssertionError".toList, "test failed".toList])]

/-- The found_errors accumulation loop of analyze_build_errors: a
category is appended (once, thanks to the break) as soon as one of its
patterns occurs case-insensitively in the logs. -/
def found_errors_of (logs : Str) : List Str :=
  (error_patterns.filter
      (fun cp => cp.2.any (fun pat => containsSub (pyLower pat) (pyLower logs)))).map
    (fun cp => cp.1)

/-- The log re-extraction of analyze_build_errors line 130:
logs_response.split("Build logs for")[1].split("\n", 1)[1] when
"Build logs for" occurs in the response, else the empty string.
none models the uncaught IndexError when an indexed element is missing. -/
def extractLogs (resp : Str) : Option Str :=
  if containsSub "Build logs for".toList resp then
    match (pysplit "Build logs for".toList resp).get? 1 with
    | none => none
    | some seg => (pysplit1 "\n".toList seg).get? 1
  else some []

/-- analyze_build_errors (jenkins_tool.py lines 120-151).  Python set
iteration order is implementation defined; since each category is
appended at most once, set(found_errors) holds exactly the elements of
found_errors and the join is modelled in list order. -/
def analyze_build_errors (job_name : Str) (cfg : Creds) (net : Net) :
    PyOutcome × List Request :=
  if !cfg.configured then
    (PyOutcome.ret "Jenkins credentials not configured.".toList, [])
  else
    let lr := get_build_logs job_name none cfg net
    if startsWithL "Error".toList lr.1 then (PyOutcome.ret lr.1, lr.2)
    else
      match extractLogs lr.1 with
      | none => (PyOutcome.raised, lr.2)
      | some logs =>
          let fe := found_errors_of logs
          if !fe.isEmpty then
            (PyOutcome.ret ("Error Analysis for '".toList ++ job_name
              ++ "':\nFound issues: ".toList ++ (List.intercalate ", ".toList fe)
              ++ "\n\nFull logs:\n".toList ++ logs), lr.2)
          else
            (PyOutcome.ret ("No common errors detected in '".toList ++ job_name
              ++ "' build logs.\n\nLogs:\n".toList ++ logs), lr.2)

/-! ## jenkins_tool.py : keyword router -/

def wantsTrigger (o : Str) : Bool :=
  containsSub "trigger".toList o || containsSub "build".toList o || containsSub "run".toList o

def wantsStatus (o : Str) : Bool :=
  containsSub "status".toList o || containsSub "check".toList o

def wantsLogs (o : Str) : Bool :=
  containsSub "logs".toList o || containsSub "output".toList o

def wantsAnalyze (o : Str) : Bool :=
  containsSub "error".toList o || containsSub "analyze".toList o || containsSub "debug".toList o

def wantsCreate (o : Str) : Bool :=
  containsSub "create".toList o

/-- The template job definition built inline in the create branch. -/
def jobConfigXml (job_name : Str) : Str :=
  "<?xml version='1.1' encoding='UTF-8'?>\n<project>\n  <description>Auto-generated job for ".toList
    ++ job_name
    ++ "</description>\n  <builders>\n    <hudson.tasks.Shell>\n      <command>echo \"Hello from ".toList
    ++ job_name
    ++ "!\"\necho \"Build started at $(date)\"\necho \"Build completed successfully\"</command>\n    </hudson.tasks.Shell>\n  </builders>\n</project>".toList

/-- jenkins_operations (jenkins_tool.py lines 156-182): lower-cases and
strips the operation text, then dispatches on the first matching keyword
group. -/
def jenkins_operations (job_name : Str) (cfg : Creds) (net : Net) (operation : Str) :
    PyOutcome × List Request :=
  let op := pyStrip (pyLower operation)
  if wantsTrigger op then liftRes (trigger_jenkins_job job_name cfg net)
  else if wantsStatus op then liftRes (get_job_status job_name cfg net)
  else if wantsLogs op then liftRes (get_build_logs job_name none cfg net)
  else if wantsAnalyze op then analyze_build_errors job_name cfg net
  else if wantsCreate op then liftRes (create_jenkins_job job_name (jobConfigXml job_name) cfg net)
  else
    (PyOutcome.ret ("Available operations for job '".toList ++ job_name
      ++ "': trigger, status, logs, analyze, create".toList), [])

/-! ## code_indexer.py : extension table, splitter, indexing -/

/-- The "All" allow-list of code_indexer.py (value of EXTENSIONS["All"]). -/
def allExtensions : List Str :=
  [".py".toList, ".js".toList, ".jsx".toList, ".ts".toList, ".tsx".toList,
   ".java".toList, ".md".toList, ".txt".toList, ".json".toList, ".yaml".toList,
   ".yml".toList, ".xml".toList, ".html".toList, ".css".toList]

/-- The EXTENSIONS table of code_indexer.py (lines 14-21), with insertion
order preserved. -/
def EXTENSIONS : List (Str × List Str) :=
  [("Python".toList, [".py".toList]),
   ("JavaScript".toList, [".js".toList, ".jsx".toList, ".ts".toList, ".tsx".toList]),
   ("Java".toList, [".java".toList]),
   ("Markdown".toList, [".md".toList]),
   ("Text".toList, [".txt".toList]),
   ("All".toList, allExtensions)]

/-- EXTENSIONS.get(language, EXTENSIONS["All"]). -/
def extensionsGet (language : Str) : List Str :=
  match EXTENSIONS.find? (fun e => e.1 == language) with
  | some e => e.2
  | none => allExtensions

/-- Modelled from the spec: code_indexer.py delegates chunking to
RecursiveCharacterTextSplitter(chunk_size=1000, chunk_overlap=100,
length_function=len) of the external langchain_text_splitters package,
whose code is not part of this repository.  The spec describes it as a
length-based splitter with fixed target chunk length 1000 and overlap
100, which this sliding window realises: each chunk holds the next 1000
characters and consecutive chunks share 100. -/
def split_text (s : Str) : List Str :=
  if s.length ≤ 1000 then [s]
  else s.take 1000 :: split_text (s.drop 900)
termination_by s.length
decreasing_by
  simp only [List.length_drop]
  omega

/-- One indexed chunk: langchain Document with the metadata attached by
unzip_and_index (source path, chunk_id, language). -/
structure Document where
  page_content : Str
  source : Str
  chunk_id : Nat
  language : Str
deriving DecidableEq

/-- Pairs each chunk of a file with its 0-based position. -/
def enumFrom (j : Nat) : List Str → List (Nat × Str)
  | [] => []
  | c :: rest => (j, c) :: enumFrom (j + 1) rest

/-- A file of the extracted tree is eligible when its name ends in an
allowed extension and its stripped content is non-empty. -/
def eligibleFile (valid_exts : List Str) (fc : Str × Str) : Bool :=
  valid_exts.any (fun ext => endsWithL ext fc.1) && !(pyStrip fc.2).isEmpty

/-- The files the os.walk loop of unzip_and_index collects: those whose
name matches the active allow-list and whose stripped content is
non-empty, in walk order. -/
def eligibleDocs (tree : List (Str × Str)) (language : Str) : List (Str × Str) :=
  tree.filter (eligibleFile (extensionsGet language))

/-- The Document list built by the chunking loop of unzip_and_index:
each eligible file is split and every chunk paired with its source path,
0-based chunk_id and the active language tag. -/
def chunkDocs (docs : List (Str × Str)) (language : Str) : List Document :=
  (docs.map (fun fc =>
    (enumFrom 0 (split_text fc.2)).map
      (fun jc => Document.mk jc.2 fc.1 jc.1 language))).flatten

/-- unzip_and_index (code_indexer.py lines 37-104), embedded over an
abstract extracted tree: the list of (path, decoded content) pairs the
os.walk enumerates, in walk order.  The chroma_store state is an
Option (List Document): none = no store directory on disk.  The
filesystem is modelled fault-free (force_delete succeeds, every file
reads, extraction succeeds), matching the paths the claims exercise.
Returns the result text and the chroma_store state after the call. -/
def unzip_and_index (tree : List (Str × Str)) (language : Str)
    (store : Option (List Document)) : Str × Option (List Document) :=
  -- lines 40-41: a pre-existing chroma_store is force-deleted up front
  let _ := store
  let docs := eligibleDocs tree language
  if docs.isEmpty then
    ("No supported code files found for indexing.".toList, none)
  else
    let documents := chunkDocs docs language
    ("Indexed ".toList ++ (toString docs.length).toList
      ++ " files and stored ".toList ++ (toString documents.length).toList
      ++ " document chunks.".toList,
     some documents)

/-! ## agent_runner.py : retrieval tool input adapter -/

/-- A tool invocation payload: either a mapping (Python dict, modelled
as its insertion-ordered key/value pairs, values already rendered as
the strings their truthiness is judged on), or any non-mapping payload
via its str() image. -/
inductive ToolInput where
  | dict (entries : List (Str × Str))
  | scalar (stringified : Str)
deriving DecidableEq

/-- Python dict lookup over the insertion-ordered pairs. -/
def lookupKey (entries : List (Str × Str)) (k : Str) : Option Str :=
  (entries.find? (fun e => e.1 == k)).map (fun e => e.2)

/-- The for-loop of universal_input_adapter: first key of the priority
list that is present with a truthy (non-empty) value. -/
def firstTruthy (entries : List (Str × Str)) : List Str → Option Str
  | [] => none
  | k :: ks =>
      match lookupKey entries k with
      | some v => if v.isEmpty then firstTruthy entries ks else some v
      | none => firstTruthy entries ks

/-- universal_input_adapter (agent_runner.py lines 48-55); the returned
single-entry mapping is represented by its query value.  str({}) for the
empty dict renders as "\x7b\x7d". -/
def universal_input_adapter : ToolInput → Str
  | ToolInput.scalar s => s
  | ToolInput.dict entries =>
      match firstTruthy entries ["query".toList, "input".toList, "page_content".toList] with
      | some v => v
      | none =>
          match entries with
          | [] => ['\x7b', '\x7d']
          | e :: _ => e.2

/-! ## Concrete fixtures used by witnesses and counterexamples -/

/-- A network whose every response is the given one. -/
def constNet (resp : HttpResponse) : Net := fun _ => Except.ok resp

/-- Configured credentials. -/
def cfgOK : Creds := ⟨"http://localhost:8080".toList, some "admin".toList, some "token".toList⟩

/-- Unconfigured credentials (both variables unset). -/
def cfgUnset : Creds := ⟨"http://localhost:8080".toList, none, none⟩

/-- A network on which every call raises. -/
def netDead : Net := fun _ => Except.error "unreachable".toList

/-! ## Claim C5 -/

/-- Claim C5: when the CI username or API token is not configured, every CI
operation (trigger, status, logs, analyze, create) returns a not-configured
message and performs zero network calls: the credential check short-circuits
before any HTTP request is attempted. -/
theorem c5_missing_credentials (job jc : Str) (bn : Option Nat) (cfg : Creds) (net : Net)
    (h : cfg.configured = false) :
    trigger_jenkins_job job cfg net
      = ("Jenkins credentials not configured. Please set JENKINS_USERNAME and JENKINS_API_TOKEN.".toList, [])
    ∧ get_job_status job cfg net = ("Jenkins credentials not configured.".toList, [])
    ∧ get_build_logs job bn cfg net = ("Jenkins credentials not configured.".toList, [])
    ∧ analyze_build_errors job cfg net
      = (PyOutcome.ret "Jenkins credentials not configured.".toList, [])
    ∧ create_jenkins_job job jc cfg net
      = ("Jenkins credentials not configured. Please set JENKINS_USERNAME and JENKINS_API_TOKEN.".toList, []) := by
  refine ⟨?_, ?_, ?_, ?_, ?_⟩ <;>
    simp [trigger_jenkins_job, get_job_status, get_build_logs, analyze_build_errors,
      create_jenkins_job, h]

theorem c5_missing_credentials_witness :
    trigger_jenkins_job "j".toList cfgUnset netDead
      = ("Jenkins credentials not configured. Please set JENKINS_USERNAME and JENKINS_API_TOKEN.".toList, [])
    ∧ analyze_build_errors "j".toList cfgUnset netDead
      = (PyOutcome.ret "Jenkins credentials not configured.".toList, []) := by
  have h := c5_missing_credentials "j".toList "c".toList none cfgUnset netDead (by rfl)
  exact ⟨h.1, h.2.2.2.1⟩

/-! ## Claim C4 -/

/-- Claim C4: a console log longer than 2000 characters fetched via the logs
operation is included as exactly its first 2000 characters followed by the
truncation marker; a log of at most 2000 characters is included unmodified. -/
theorem c4_log_truncation (job t : Str) (cfg : Creds) (hc : cfg.configured = true) :
    (2000 < t.length →
      (get_build_logs job none cfg (constNet ⟨200, t, none, none⟩)).1
        = "Build logs for '".toList ++ job ++ "':\n".toList
            ++ (t.take 2000 ++ "\n... (truncated)".toList))
    ∧ (t.length ≤ 2000 →
      (get_build_logs job none cfg (constNet ⟨200, t, none, none⟩)).1
        = "Build logs for '".toList ++ job ++ "':\n".toList ++ t) := by
  refine ⟨fun h => ?_, fun h => ?_⟩
  · simp [get_build_logs, constNet, hc, h]
  · simp [get_build_logs, constNet, hc, Nat.not_lt.mpr h]

theorem c4_log_truncation_witness :
    (2000 < (List.replicate 5000 'a').length
      ∧ (get_build_logs "j".toList none cfgOK
            (constNet ⟨200, List.replicate 5000 'a', none, none⟩)).1
          = "Build logs for '".toList ++ "j".toList ++ "':\n".toList
              ++ ((List.replicate 5000 'a').take 2000 ++ "\n... (truncated)".toList))
    ∧ (get_build_logs "hi".toList none cfgOK (constNet ⟨200, "ok".toList, none, none⟩)).1
        = "Build logs for '".toList ++ "hi".toList ++ "':\n".toList ++ "ok".toList := by
  have hlen : 2000 < (List.replicate 5000 'a').length := by
    rw [List.length_replicate]; omega
  refine ⟨⟨hlen, ?_⟩, ?_⟩
  · exact (c4_log_truncation "j".toList (List.replicate 5000 'a') cfgOK (by rfl)).1 hlen
  · exact (c4_log_truncation "hi".toList "ok".toList cfgOK (by rfl)).2 (by simp)

/-! ## Claim C2 -/

/-- Claim C2: the router lower-cases the operation text and evaluates the five
keyword groups in fixed priority order, the first match winning: trigger/build/run,
then status/check, then logs/output, then error/analyze/debug, then create, else a
help string listing the five operations. -/
theorem c2_router_priority (job oper : Str) (cfg : Creds) (net : Net) :
    (wantsTrigger (pyStrip (pyLower oper)) = true →
      jenkins_operations job cfg net oper = liftRes (trigger_jenkins_job job cfg net))
    ∧ (wantsTrigger (pyStrip (pyLower oper)) = false →
       wantsStatus (pyStrip (pyLower oper)) = true →
      jenkins_operations job cfg net oper = liftRes (get_job_status job cfg net))
    ∧ (wantsTrigger (pyStrip (pyLower oper)) = false →
       wantsStatus (pyStrip (pyLower oper)) = false →
       wantsLogs (pyStrip (pyLower oper)) = true →
      jenkins_operations job cfg net oper = liftRes (get_build_logs job none cfg net))
    ∧ (wantsTrigger (pyStrip (pyLower oper)) = false →
       wantsStatus (pyStrip (pyLower oper)) = false →
       wantsLogs (pyStrip (pyLower oper)) = false →
       wantsAnalyze (pyStrip (pyLower oper)) = true →
      jenkins_operations job cfg net oper = analyze_build_errors job cfg net)
    ∧ (wantsTrigger (pyStrip (pyLower oper)) = false →
       wantsStatus (pyStrip (pyLower oper)) = false →
       wantsLogs (pyStrip (pyLower oper)) = false →
       wantsAnalyze (pyStrip (pyLower oper)) = false →
       wantsCreate (pyStrip (pyLower oper)) = true →
      jenkins_operations job cfg net oper
        = liftRes (create_jenkins_job job (jobConfigXml job) cfg net))
    ∧ (wantsTrigger (pyStrip (pyLower oper)) = false →
       wantsStatus (pyStrip (pyLower oper)) = false →
       wantsLogs (pyStrip (pyLower oper)) = false →
       wantsAnalyze (pyStrip (pyLower oper)) = false →
       wantsCreate (pyStrip (pyLower oper)) = false →
      jenkins_operations job cfg net oper
        = (PyOutcome.ret ("Available operations for job '".toList ++ job
            ++ "': trigger, status, logs, analyze, create".toList), [])) := by
  refine ⟨fun h1 => ?_, fun h1 h2 => ?_, fun h1 h2 h3 => ?_, fun h1 h2 h3 h4 => ?_,
    fun h1 h2 h3 h4 h5 => ?_, fun h1 h2 h3 h4 h5 => ?_⟩ <;>
    simp_all [jenkins_operations]

/-- Witness: text containing both status and logs takes the status branch, and
text containing both trigger and analyze takes the trigger branch. -/
theorem c2_router_priority_witness :
    jenkins_operations "j".toList cfgOK netDead "Check the STATUS and logs".toList
      = liftRes (get_job_status "j".toList cfgOK netDead)
    ∧ jenkins_operations "j".toList cfgOK netDead "trigger then analyze".toList
      = liftRes (trigger_jenkins_job "j".toList cfgOK netDead) := by
  constructor
  · exact (c2_router_priority "j".toList "Check the STATUS and logs".toList cfgOK netDead).2.1
      (by decide) (by decide)
  · exact (c2_router_priority "j".toList "trigger then analyze".toList cfgOK netDead).1
      (by decide)

/-! ## Claim C3 -/

/-- Counterexample to claim C3: the HTTP status mapping is not uniform across
the CI operations.  A trigger call answered with status 200 yields the generic
failure text (not a success text), and a create call answered with status 201
also yields the generic failure text, although the claim promises success text
for both 200 and 201 on every operation. -/
theorem c3_status_mapping_counterexample :
    (trigger_jenkins_job "j".toList cfgOK (constNet ⟨200, [], none, none⟩)).1
      = "Failed to trigger Jenkins job 'j'. Status code: 200".toList
    ∧ (trigger_jenkins_job "j".toList cfgOK (constNet ⟨200, [], none, none⟩)).1
        ≠ "Jenkins job 'j' triggered successfully.".toList
    ∧ (create_jenkins_job "j".toList [] cfgOK (constNet ⟨201, [], none, none⟩)).1
      = "Failed to create job 'j'. Status: 201".toList
    ∧ (get_job_status "j".toList cfgOK (constNet ⟨403, [], none, none⟩)).1
      = "Failed to get job status. Status code: 403".toList := by
  refine ⟨by decide, by decide, by decide, by decide⟩

/-- Claim C3 as amended: each CI operation maps the remote status by its own
table.  create: 200 success, 400 invalid-configuration, otherwise generic
failure text with the code (403/404/201 included); trigger: 201 success,
403 permission-denied, 404 not-found, otherwise generic (200 included);
status and logs: 200 success, 404 not-found, otherwise generic (403 included). -/
theorem c3_status_mapping_amended (job jc body : Str) (jr jn : Option Str) (s : Nat)
    (cfg : Creds) (hc : cfg.configured = true) :
    ((create_jenkins_job job jc cfg (constNet ⟨s, body, jr, jn⟩)).1
      = if s = 200 then "Jenkins job '".toList ++ job ++ "' created successfully.".toList
        else if s = 400 then "Invalid job configuration for '".toList ++ job ++ "'.".toList
        else "Failed to create job '".toList ++ job ++ "'. Status: ".toList
              ++ (toString s).toList)
    ∧ ((trigger_jenkins_job job cfg (constNet ⟨s, body, jr, jn⟩)).1
      = if s = 201 then "Jenkins job '".toList ++ job ++ "' triggered successfully.".toList
        else if s = 403 then "Permission denied. Check your Jenkins credentials and token.".toList
        else if s = 404 then "Job '".toList ++ job ++ "' not found on Jenkins server.".toList
        else "Failed to trigger Jenkins job '".toList ++ job ++ "'. Status code: ".toList
              ++ (toString s).toList)
    ∧ ((get_job_status job cfg (constNet ⟨s, body, jr, jn⟩)).1
      = if s = 200 then
          "Job '".toList ++ job ++ "' build #".toList ++ (jn.getD "N/A".toList)
            ++ ": ".toList ++ (jr.getD "IN_PROGRESS".toList)
        else if s = 404 then "Job '".toList ++ job ++ "' not found or no builds exist.".toList
        else "Failed to get job status. Status code: ".toList ++ (toString s).toList)
    ∧ ((get_build_logs job none cfg (constNet ⟨s, body, jr, jn⟩)).1
      = if s = 200 then
          "Build logs for '".toList ++ job ++ "':\n".toList
            ++ (if 2000 < body.length then body.take 2000 ++ "\n... (truncated)".toList
                else body)
        else if s = 404 then "Build logs not found for '".toList ++ job ++ "'.".toList
        else "Failed to get build logs. Status code: ".toList ++ (toString s).toList) := by
  refine ⟨?_, ?_, ?_, ?_⟩ <;>
    simp [create_jenkins_job, trigger_jenkins_job, get_job_status, get_build_logs,
      constNet, hc, beq_iff_eq, apply_ite Prod.fst]

theorem c3_status_mapping_witness :
    (create_jenkins_job "j".toList [] cfgOK (constNet ⟨500, [], none, none⟩)).1
      = "Failed to create job 'j'. Status: 500".toList
    ∧ (trigger_jenkins_job "j".toList cfgOK (constNet ⟨201, [], none, none⟩)).1
      = "Jenkins job 'j' triggered successfully.".toList := by
  constructor
  · have h := (c3_status_mapping_amended "j".toList [] [] none none 500 cfgOK (by rfl)).1
    simpa using h
  · have h := (c3_status_mapping_amended "j".toList [] [] none none 201 cfgOK (by rfl)).2.1
    simpa using h

/-! ## Claim C8 -/

/-- Claim C8: the retrieval tool adapter resolves the query string by exact
precedence: for a mapping, keys query, input, page_content are tried in that
order and the first present non-empty value wins; if none, a non-empty mapping
falls back to its first value; a non-mapping payload is stringified directly. -/
theorem c8_input_adapter (entries : List (Str × Str)) (s : Str) :
    (∀ v, lookupKey entries "query".toList = some v → v ≠ [] →
      universal_input_adapter (ToolInput.dict entries) = v)
    ∧ ((lookupKey entries "query".toList = none ∨ lookupKey entries "query".toList = some []) →
       ∀ v, lookupKey entries "input".toList = some v → v ≠ [] →
      universal_input_adapter (ToolInput.dict entries) = v)
    ∧ ((lookupKey entries "query".toList = none ∨ lookupKey entries "query".toList = some []) →
       (lookupKey entries "input".toList = none ∨ lookupKey entries "input".toList = some []) →
       ∀ v, lookupKey entries "page_content".toList = some v → v ≠ [] →
      universal_input_adapter (ToolInput.dict entries) = v)
    ∧ ((lookupKey entries "query".toList = none ∨ lookupKey entries "query".toList = some []) →
       (lookupKey entries "input".toList = none ∨ lookupKey entries "input".toList = some []) →
       (lookupKey entries "page_content".toList = none
          ∨ lookupKey entries "page_content".toList = some []) →
       ∀ e rest, entries = e :: rest →
      universal_input_adapter (ToolInput.dict entries) = e.2)
    ∧ universal_input_adapter (ToolInput.scalar s) = s := by
  have hemp : ∀ v : Str, v ≠ [] → v.isEmpty = false := by
    intro v hv
    cases v with
    | nil => exact absurd rfl hv
    | cons a b => rfl
  refine ⟨?_, ?_, ?_, ?_, rfl⟩
  · intro v hq hv
    simp only [universal_input_adapter, firstTruthy, hq]
    simp [hemp v hv]
  · rintro (hq | hq) v hi hv <;>
    · simp only [universal_input_adapter, firstTruthy, hq, hi]
      simp [hemp v hv]
  · rintro (hq | hq) (hi | hi) v hp hv <;>
    · simp only [universal_input_adapter, firstTruthy, hq, hi, hp]
      simp [hemp v hv]
  · rintro (hq | hq) (hi | hi) (hp | hp) e rest he <;>
    · subst he
      simp only [universal_input_adapter, firstTruthy, hq, hi, hp]
      try simp

theorem c8_input_adapter_witness :
    universal_input_adapter
        (ToolInput.dict [("input".toList, []), ("page_content".toList, "hello".toList)])
      = "hello".toList
    ∧ universal_input_adapter (ToolInput.scalar "42".toList) = "42".toList := by
  constructor
  · exact (c8_input_adapter
        [("input".toList, []), ("page_content".toList, "hello".toList)] []).2.2.1
      (Or.inl (by rfl)) (Or.inr (by rfl)) "hello".toList (by rfl) (by decide)
  · exact (c8_input_adapter [] "42".toList).2.2.2.2

/-! ## Claim C6 -/

theorem assoc_unique {l : List (Str × List Str)}
    (hnd : (l.map (fun cp => cp.1)).Nodup) {a : Str} {b c : List Str}
    (h1 : (a, b) ∈ l) (h2 : (a, c) ∈ l) : b = c := by
  induction l with
  | nil => simp at h1
  | cons hd tl ih =>
    simp only [List.map_cons, List.nodup_cons, List.mem_map] at hnd
    rcases List.mem_cons.mp h1 with he1 | ht1 <;>
      rcases List.mem_cons.mp h2 with he2 | ht2
    · rw [← he1] at he2
      exact ((Prod.mk.injEq a c a b).mp he2).2.symm
    · exact absurd ⟨(a, c), ht2, by rw [← he1]⟩ hnd.1
    · exact absurd ⟨(a, b), ht1, by rw [← he2]⟩ hnd.1
    · exact ih hnd.2 ht1 ht2

theorem error_patterns_keys_nodup :
    (error_patterns.map (fun cp => cp.1)).Nodup := by decide

/-- Claim C6: the error analyzer does case-insensitive substring matching
against the fixed category table; a category is reported exactly when one of
its patterns occurs in the log, and each category appears at most once however
often its patterns occur. -/
theorem c6_error_analyzer (logs : Str) :
    (∀ cat pats, (cat, pats) ∈ error_patterns →
      (cat ∈ found_errors_of logs ↔
        pats.any (fun pat => containsSub (pyLower pat) (pyLower logs)) = true))
    ∧ (found_errors_of logs).Nodup := by
  constructor
  · intro cat pats hmem
    constructor
    · intro hin
      simp only [found_errors_of, List.mem_map, List.mem_filter] at hin
      obtain ⟨cp, ⟨hcp, hhit⟩, hfst⟩ := hin
      obtain ⟨a, b⟩ := cp
      cases hfst
      rw [assoc_unique error_patterns_keys_nodup hmem hcp]
      exact hhit
    · intro hhit
      simp only [found_errors_of, List.mem_map, List.mem_filter]
      exact ⟨(cat, pats), ⟨hmem, hhit⟩, rfl⟩
  · have hsub : (found_errors_of logs).Sublist (error_patterns.map (fun cp => cp.1)) :=
      (List.filter_sublist _).map _
    exact error_patterns_keys_nodup.sublist hsub

/-- Witness: a log holding ModuleNotFoundError and FAILED (twice each) reports
exactly Dependency Issue and Test Failure, once each. -/
theorem c6_error_analyzer_witness :
    found_errors_of
        "ModuleNotFoundError seen and tests FAILED + ModuleNotFoundError and FAILED again".toList
      = ["Dependency Issue".toList, "Test Failure".toList]
    ∧ ("Dependency Issue".toList ∈ found_errors_of
        "ModuleNotFoundError seen and tests FAILED + ModuleNotFoundError and FAILED again".toList
      ↔ (["ModuleNotFoundError".toList, "ImportError".toList, "npm ERR".toList,
          "pip install".toList]).any (fun pat => containsSub (pyLower pat)
            (pyLower "ModuleNotFoundError seen and tests FAILED + ModuleNotFoundError and FAILED again".toList)) = true)
    ∧ (found_errors_of
        "ModuleNotFoundError seen and tests FAILED + ModuleNotFoundError and FAILED again".toList).Nodup := by
  refine ⟨by decide, ?_, ?_⟩
  · exact (c6_error_analyzer _).1 "Dependency Issue".toList _ (by decide)
  · exact (c6_error_analyzer _).2

/-! ## Claim C1 -/

/-- A pre-existing store generation, used to exhibit the destroyed state. -/
def priorDoc : Document :=
  ⟨"print(1)".toList, "unzipped/old.py".toList, 0, "Python".toList⟩

/-- Counterexample to claim C1: on a tree with zero eligible files the call
does return the no-files result and creates no store, but a pre-existing
chroma_store generation is NOT left unchanged: unzip_and_index force-deletes
it before scanning any file (code_indexer.py lines 40-41), so the store state
after the call is none rather than the prior generation. -/
theorem c1_no_files_counterexample :
    (unzip_and_index [("unzipped/a.exe".toList, "x".toList)] "Python".toList
        (some [priorDoc])).1
      = "No supported code files found for indexing.".toList
    ∧ (unzip_and_index [("unzipped/a.exe".toList, "x".toList)] "Python".toList
        (some [priorDoc])).2 = none
    ∧ (unzip_and_index [("unzipped/a.exe".toList, "x".toList)] "Python".toList
        (some [priorDoc])).2 ≠ some [priorDoc] := by
  refine ⟨by decide, by decide, by decide⟩

/-- Claim C1 as amended: for every language filter, running unzip_and_index on
a tree with zero eligible non-empty files (every file has a disallowed
extension or empty stripped content) returns the no-files result and ends with
no store on disk — any pre-existing generation having been deleted up front
rather than preserved. -/
theorem c1_no_files_amended (tree : List (Str × Str)) (language : Str)
    (store : Option (List Document))
    (h : ∀ fc ∈ tree,
        (extensionsGet language).any (fun ext => endsWithL ext fc.1) = false
        ∨ (pyStrip fc.2).isEmpty = true) :
    unzip_and_index tree language store
      = ("No supported code files found for indexing.".toList, none) := by
  have hfil : eligibleDocs tree language = [] := by
    unfold eligibleDocs
    rw [List.filter_eq_nil_iff]
    intro fc hfc
    rcases h fc hfc with h1 | h2
    · simp [eligibleFile, h1]
    · simp [eligibleFile, h2]
  simp [unzip_and_index, hfil]

theorem c1_no_files_witness :
    unzip_and_index
        [("unzipped/a.exe".toList, "x".toList), ("unzipped/b.py".toList, "  ".toList)]
        "Python".toList (some [priorDoc])
      = ("No supported code files found for indexing.".toList, none) := by
  exact c1_no_files_amended _ _ _ (by decide)

/-! ## Claim C10 -/

/-- Forgets the language tag of a chunk's metadata. -/
def eraseLang (d : Document) : Document :=
  ⟨d.page_content, d.source, d.chunk_id, []⟩

/-- Claim C10: a language_filter that is none of the six table keys silently
falls back to the All allow-list: indexing behaves identically to
language "All" on the same tree, up to the language tag stored in each
chunk's metadata. -/
theorem c10_unknown_language (tree : List (Str × Str)) (language : Str)
    (store : Option (List Document))
    (h : language ∉ EXTENSIONS.map (fun e => e.1)) :
    (unzip_and_index tree language store).1
      = (unzip_and_index tree "All".toList store).1
    ∧ Option.map (List.map eraseLang) (unzip_and_index tree language store).2
      = Option.map (List.map eraseLang) (unzip_and_index tree "All".toList store).2 := by
  have hfind : EXTENSIONS.find? (fun e => e.1 == language) = none := by
    rw [List.find?_eq_none]
    intro e he
    simp only [beq_iff_eq]
    intro heq
    exact h (heq ▸ List.mem_map_of_mem (fun e => e.1) he)
  have hval : extensionsGet language = allExtensions := by
    simp [extensionsGet, hfind]
  have hvalAll : extensionsGet "All".toList = allExtensions := by decide
  have hElig : eligibleDocs tree language = eligibleDocs tree "All".toList := by
    unfold eligibleDocs
    rw [hval, hvalAll]
  have hChunks : ∀ d, (chunkDocs d language).map eraseLang
      = (chunkDocs d "All".toList).map eraseLang := by
    intro d
    unfold chunkDocs
    rw [List.map_flatten, List.map_flatten, List.map_map, List.map_map]
    refine congrArg List.flatten (List.map_congr_left ?_)
    intro fc _
    simp only [Function.comp_apply]
    rw [List.map_map, List.map_map]
    rfl
  have hlen : ∀ d, (chunkDocs d language).length = (chunkDocs d "All".toList).length := by
    intro d
    have h2 := congrArg List.length (hChunks d)
    simpa using h2
  simp only [unzip_and_index]
  rw [hElig]
  by_cases hd : (eligibleDocs tree "All".toList).isEmpty = true
  · constructor
    · rw [if_pos hd, if_pos hd]
    · rw [if_pos hd, if_pos hd]
  · constructor
    · rw [if_neg hd, if_neg hd]
      show "Indexed ".toList ++ (toString (eligibleDocs tree "All".toList).length).toList
          ++ " files and stored ".toList
          ++ (toString (chunkDocs (eligibleDocs tree "All".toList) language).length).toList
          ++ " document chunks.".toList
        = "Indexed ".toList ++ (toString (eligibleDocs tree "All".toList).length).toList
          ++ " files and stored ".toList
          ++ (toString (chunkDocs (eligibleDocs tree "All".toList) "All".toList).length).toList
          ++ " document chunks.".toList
      rw [hlen]
    · rw [if_neg hd, if_neg hd]
      show some ((chunkDocs (eligibleDocs tree "All".toList) language).map eraseLang)
          = some ((chunkDocs (eligibleDocs tree "All".toList) "All".toList).map eraseLang)
      exact congrArg some (hChunks _)

theorem c10_unknown_language_witness :
    (unzip_and_index [("unzipped/a.py".toList, "print(1)".toList)] "Rust".toList none).1
      = (unzip_and_index [("unzipped/a.py".toList, "print(1)".toList)] "All".toList none).1
    ∧ Option.map (List.map eraseLang)
        (unzip_and_index [("unzipped/a.py".toList, "print(1)".toList)] "Rust".toList none).2
      = Option.map (List.map eraseLang)
        (unzip_and_index [("unzipped/a.py".toList, "print(1)".toList)] "All".toList none).2 := by
  exact c10_unknown_language _ "Rust".toList none (by decide)

/-! ## Claim C7 -/

theorem splitText_length_aux :
    ∀ (n : Nat) (s : Str), s.length = n →
      (split_text s).length = if n ≤ 1000 then 1 else (n - 100 + 899) / 900 := by
  intro n
  induction n using Nat.strong_induction_on with
  | _ n ih =>
    intro s hs
    rw [split_text]
    by_cases h : s.length ≤ 1000
    · rw [if_pos h, if_pos (hs ▸ h)]
      rfl
    · rw [if_neg h]
      have hn : 1000 < n := by omega
      rw [if_neg (by omega)]
      have hrec := ih (n - 900) (by omega) (s.drop 900) (by simp [hs])
      simp only [List.length_cons, hrec]
      by_cases h19 : n - 900 ≤ 1000
      · rw [if_pos h19]
        omega
      · rw [if_neg h19]
        omega

/-- Claim C7: with chunk size 1000 and overlap 100 a file of length L yields
one chunk when L is at most 1000 and ceil((L-100)/900) chunks when L exceeds
1000; the Nat expression (L - 100 + 899) / 900 is that ceiling. -/
theorem c7_chunk_count (content : Str) :
    (content.length ≤ 1000 → (split_text content).length = 1)
    ∧ (1000 < content.length →
        (split_text content).length = (content.length - 100 + 899) / 900) := by
  have h := splitText_length_aux content.length content rfl
  constructor
  · intro hle
    rw [h, if_pos hle]
  · intro hgt
    rw [h, if_neg (by omega)]

/-- Witness: a 1000-character file yields one chunk, a 1001-character file
yields two. -/
theorem c7_chunk_count_witness :
    (split_text (List.replicate 1000 'a')).length = 1
    ∧ (split_text (List.replicate 1001 'a')).length = 2 := by
  constructor
  · exact (c7_chunk_count (List.replicate 1000 'a')).1
      (by rw [List.length_replicate])
  · have h := (c7_chunk_count (List.replicate 1001 'a')).2
      (by rw [List.length_replicate]; omega)
    rw [h, List.length_replicate]

/-! ## Claim C9 : substring reasoning for the truncated-log analysis -/

theorem startsWithL_append_cases {b : Str} :
    ∀ (x p : Str), startsWithL p (x ++ b) = true →
      startsWithL p x = true ∨ ∃ ch, b.head? = some ch ∧ ch ∈ p := by
  intro x
  induction x with
  | nil =>
    intro p h
    cases p with
    | nil => exact Or.inl rfl
    | cons q p' =>
      cases b with
      | nil => simp [startsWithL] at h
      | cons hb tb =>
        simp only [List.nil_append, startsWithL, Bool.and_eq_true, beq_iff_eq] at h
        exact Or.inr ⟨hb, rfl, h.1 ▸ List.mem_cons_self q p'⟩
  | cons c x' ih =>
    intro p h
    cases p with
    | nil => exact Or.inl rfl
    | cons q p' =>
      simp only [List.cons_append, startsWithL, Bool.and_eq_true] at h
      rcases ih p' h.2 with h1 | ⟨ch, hh, hm⟩
      · exact Or.inl (by simp [startsWithL, h.1, h1])
      · exact Or.inr ⟨ch, hh, List.mem_cons_of_mem q hm⟩

theorem containsSub_of_suffix_startsWith {p a₂ : Str} :
    ∀ a : Str, a₂ <:+ a → startsWithL p a₂ = true → containsSub p a = true := by
  intro a
  induction a with
  | nil =>
    intro hsuf hst
    rw [List.suffix_nil] at hsuf
    subst hsuf
    cases p with
    | nil => rfl
    | cons q p' => simp [startsWithL] at hst
  | cons c r ih =>
    intro hsuf hst
    rcases List.suffix_cons_iff.mp hsuf with rfl | h1
    · simp only [containsSub, Bool.or_eq_true]
      exact Or.inl hst
    · simp only [containsSub, Bool.or_eq_true]
      exact Or.inr (ih h1 hst)

theorem containsSub_append_false {p b : Str} :
    ∀ a : Str, containsSub p a = false → containsSub p b = false →
      (∀ a₂, a₂ <:+ a → a₂ ≠ [] → startsWithL p (a₂ ++ b) = false) →
      containsSub p (a ++ b) = false := by
  intro a
  induction a with
  | nil => intro _ hb _; exact hb
  | cons c a' ih =>
    intro ha hb hstr
    simp only [containsSub, Bool.or_eq_false_iff] at ha
    simp only [List.cons_append, containsSub, Bool.or_eq_false_iff]
    constructor
    · have := hstr (c :: a') List.suffix_rfl (List.cons_ne_nil c a')
      simpa using this
    · exact ih ha.2 hb (fun a₂ hsuf hne =>
        hstr a₂ (hsuf.trans (List.suffix_cons c a')) hne)

/-- If the head of b does not occur in p, then p occurs in a ++ b only if it
occurs in a or in b alone: no occurrence can straddle the junction. -/
theorem containsSub_append_no_head {p a b : Str} {ch : Char}
    (hh : b.head? = some ch) (hnotin : ch ∉ p)
    (ha : containsSub p a = false) (hb : containsSub p b = false) :
    containsSub p (a ++ b) = false := by
  refine containsSub_append_false a ha hb ?_
  intro a₂ hsuf hne
  cases hst : startsWithL p (a₂ ++ b) with
  | false => rfl
  | true =>
    rcases startsWithL_append_cases a₂ p hst with h1 | ⟨ch', hh', hm⟩
    · exact absurd (containsSub_of_suffix_startsWith a hsuf h1) (by simp [ha])
    · rw [hh] at hh'
      cases hh'
      exact absurd hm hnotin

theorem containsSub_findSub_none {p : Str} :
    ∀ s : Str, containsSub p s = false → findSub p s = none := by
  intro s
  induction s with
  | nil =>
    intro h
    simp only [containsSub, List.isEmpty_iff] at h
    simp [findSub, h]
  | cons c r ih =>
    intro h
    simp only [containsSub, Bool.or_eq_false_iff] at h
    simp [findSub, h.1, ih h.2]

theorem startsWithL_self_append : ∀ (sep rest : Str), startsWithL sep (sep ++ rest) = true := by
  intro sep rest
  induction sep with
  | nil => rfl
  | cons c s ih => simp [startsWithL, ih]

/-- pysplit on a string that starts with the separator and has no further
occurrence: exactly two segments, the empty one and the remainder. -/
theorem pysplit_two {sep rest : Str} (hsep : sep ≠ [])
    (hrest : findSub sep rest = none) :
    pysplit sep (sep ++ rest) = [[], rest] := by
  have hemp : sep.isEmpty = false := by
    cases sep with
    | nil => exact absurd rfl hsep
    | cons a as => rfl
  have hfind : findSub sep (sep ++ rest) = some 0 := by
    cases hs : sep ++ rest with
    | nil =>
      cases sep with
      | nil => exact absurd rfl hsep
      | cons a as => simp at hs
    | cons c r =>
      simp only [findSub]
      rw [← hs]
      simp [startsWithL_self_append]
  rw [pysplit, dif_neg (by simp [hemp])]
  split
  next hf =>
    rw [hfind] at hf
    exact absurd hf (by simp)
  next i hf =>
    rw [hfind] at hf
    injection hf with hi
    subst hi
    rw [List.take_zero, Nat.zero_add, List.drop_left]
    rw [pysplit, dif_neg (by simp [hemp])]
    split
    next hf2 => rfl
    next j hf2 =>
      rw [hrest] at hf2
      exact absurd hf2 (by simp)

theorem containsSub_replicate {p : Str} {c : Char} (hp : p ≠ []) (hc : c ∉ p) :
    ∀ n, containsSub p (List.replicate n c) = false := by
  intro n
  induction n with
  | zero =>
    cases p with
    | nil => exact absurd rfl hp
    | cons a as => rfl
  | succ n ih =>
    rw [List.replicate_succ]
    simp only [containsSub, Bool.or_eq_false_iff]
    refine ⟨?_, ih⟩
    cases p with
    | nil => exact absurd rfl hp
    | cons q p' =>
      have hqc : (q == c) = false := by
        refine beq_eq_false_iff_ne.mpr ?_
        intro h
        exact hc (h ▸ List.mem_cons_self q p')
      simp [startsWithL, hqc]

theorem found_errors_nil {L : Str}
    (h : ∀ cp ∈ error_patterns, ∀ pat ∈ cp.2,
        containsSub (pyLower pat) (pyLower L) = false) :
    found_errors_of L = [] := by
  unfold found_errors_of
  rw [List.map_eq_nil_iff, List.filter_eq_nil_iff]
  intro cp hcp
  simp only [Bool.not_eq_true, List.any_eq_false]
  intro pat hpat
  simp [h cp hcp pat hpat]

/-- Evaluation of analyze_build_errors along the no-errors path, given the
facts the hypotheses fix about the fetched response. -/
theorem analyze_eval {job : Str} {cfg : Creds} {net : Net} {L : Str}
    (hc : (!cfg.configured) = false)
    (hnoterr : startsWithL "Error".toList (get_build_logs job none cfg net).1 = false)
    (hex : extractLogs (get_build_logs job none cfg net).1 = some L)
    (hfe : found_errors_of L = []) :
    analyze_build_errors job cfg net
      = (PyOutcome.ret ("No common errors detected in '".toList ++ job
          ++ "' build logs.\n\nLogs:\n".toList ++ L),
         (get_build_logs job none cfg net).2) := by
  unfold analyze_build_errors
  rw [hc, if_neg (by simp)]
  rcases hgb : get_build_logs job none cfg net with ⟨g1, g2⟩
  have hnoterr2 : startsWithL ['E', 'r', 'r', 'o', 'r'] g1 = false := by
    rw [hgb] at hnoterr
    exact hnoterr
  have hex2 : extractLogs g1 = some L := by
    rw [hgb] at hex
    exact hex
  show (if startsWithL "Error".toList g1 = true then (PyOutcome.ret g1, g2)
        else match extractLogs g1 with
          | none => (PyOutcome.raised, g2)
          | some logs =>
              if !(found_errors_of logs).isEmpty then
                (PyOutcome.ret ("Error Analysis for '".toList ++ job
                  ++ "':\nFound issues: ".toList
                  ++ List.intercalate ", ".toList (found_errors_of logs)
                  ++ "\n\nFull logs:\n".toList ++ logs), g2)
              else
                (PyOutcome.ret ("No common errors detected in '".toList ++ job
                  ++ "' build logs.\n\nLogs:\n".toList ++ logs), g2))
      = (PyOutcome.ret ("No common errors detected in '".toList ++ job
          ++ "' build logs.\n\nLogs:\n".toList ++ L), g2)
  rw [if_neg (by simp [hnoterr2]), hex2]
  simp [hfe]

theorem pysplit_step {sep s : Str} {i : Nat} (hf : findSub sep s = some i)
    (hne : sep.isEmpty = false) :
    pysplit sep s = s.take i :: pysplit sep (s.drop (i + sep.length)) := by
  rw [pysplit, dif_neg (by simp [hne])]
  split
  next hf2 =>
    rw [hf] at hf2
    exact absurd hf2 (by simp)
  next j hf2 =>
    rw [hf] at hf2
    injection hf2 with hj
    subst hj
    rfl

theorem pysplit_last {sep s : Str} (hf : findSub sep s = none)
    (hne : sep.isEmpty = false) : pysplit sep s = [s] := by
  rw [pysplit, dif_neg (by simp [hne])]
  split
  next hf2 => rfl
  next j hf2 =>
    rw [hf] at hf2
    exact absurd hf2 (by simp)

/-- A network whose console-log endpoint serves the remote log t. -/
def netLogs (t : Str) : Net := fun _ => Except.ok ⟨200, t, none, none⟩

/-- Claim C9 as amended: the analyzer only ever sees the 2000-character
truncation of the remote log.  For every remote log longer than 2000
characters whose category-matching substrings all lie beyond position 2000
and whose first 2000 characters do not contain the literal header text
"Build logs for" (when they do, the analyzer's log re-extraction cuts the
logs down even further - see the counterexample - though still never to the
complete remote log), the analyzer reports that no common errors were
detected and the logs included in its output are exactly the first 2000
characters plus the truncation marker. -/
theorem c9_truncated_analysis_amended (t : Str)
    (hlen : 2000 < t.length)
    (hpat : ∀ p ∈ (error_patterns.map (fun cp => cp.2)).flatten,
        containsSub (pyLower p) (pyLower (t.take 2000)) = false)
    (hsep : containsSub "Build logs for".toList (t.take 2000) = false) :
    analyze_build_errors "j".toList cfgOK (netLogs t)
      = (PyOutcome.ret ("No common errors detected in '".toList ++ "j".toList
          ++ "' build logs.\n\nLogs:\n".toList
          ++ (t.take 2000 ++ "\n... (truncated)".toList)),
         [⟨Method.get, cfgOK.baseUrl ++ "/job/".toList ++ "j".toList
             ++ "/lastBuild/consoleText".toList, none⟩]) := by
  have hgl : get_build_logs "j".toList none cfgOK (netLogs t)
      = ("Build logs for '".toList ++ "j".toList ++ "':\n".toList
          ++ (t.take 2000 ++ "\n... (truncated)".toList),
         [⟨Method.get, cfgOK.baseUrl ++ "/job/".toList ++ "j".toList
             ++ "/lastBuild/consoleText".toList, none⟩]) := by
    show ("Build logs for '".toList ++ "j".toList ++ "':\n".toList
          ++ (if 2000 < t.length then t.take 2000 ++ "\n... (truncated)".toList else t),
         [(⟨Method.get, cfgOK.baseUrl ++ "/job/".toList ++ "j".toList
             ++ "/lastBuild/consoleText".toList, none⟩ : Request)])
        = ("Build logs for '".toList ++ "j".toList ++ "':\n".toList
          ++ (t.take 2000 ++ "\n... (truncated)".toList),
         [(⟨Method.get, cfgOK.baseUrl ++ "/job/".toList ++ "j".toList
             ++ "/lastBuild/consoleText".toList, none⟩ : Request)])
    rw [if_pos hlen]
  have hsepT : containsSub "Build logs for".toList
      (t.take 2000 ++ "\n... (truncated)".toList) = false :=
    containsSub_append_no_head rfl (by decide) hsep (by decide)
  have hmid : containsSub "Build logs for".toList
      (" 'j':\n".toList ++ (t.take 2000 ++ "\n... (truncated)".toList)) = false := by
    refine containsSub_append_false " 'j':\n".toList (by decide) hsepT ?_
    intro a₂ hsuf hne
    rcases List.suffix_cons_iff.mp hsuf with rfl | h1
    · rfl
    rcases List.suffix_cons_iff.mp h1 with rfl | h2
    · rfl
    rcases List.suffix_cons_iff.mp h2 with rfl | h3
    · rfl
    rcases List.suffix_cons_iff.mp h3 with rfl | h4
    · rfl
    rcases List.suffix_cons_iff.mp h4 with rfl | h5
    · rfl
    rcases List.suffix_cons_iff.mp h5 with rfl | h6
    · rfl
    rw [List.suffix_nil] at h6
    exact absurd h6 hne
  have hex : extractLogs ("Build logs for '".toList ++ "j".toList ++ "':\n".toList
      ++ (t.take 2000 ++ "\n... (truncated)".toList))
      = some (t.take 2000 ++ "\n... (truncated)".toList) := by
    have hsplit : pysplit "Build logs for".toList
        ("Build logs for '".toList ++ "j".toList ++ "':\n".toList
          ++ (t.take 2000 ++ "\n... (truncated)".toList))
        = [[], " 'j':\n".toList ++ (t.take 2000 ++ "\n... (truncated)".toList)] :=
      pysplit_two (by decide) (containsSub_findSub_none _ hmid)
    unfold extractLogs
    rw [hsplit]
    rfl
  have hfe : found_errors_of (t.take 2000 ++ "\n... (truncated)".toList) = [] := by
    have hAll : ∀ cp ∈ error_patterns, ∀ pat ∈ cp.2,
        containsSub (pyLower pat) (pyLower "\n... (truncated)".toList) = false
        ∧ '\n' ∉ pyLower pat := by decide
    refine found_errors_nil ?_
    intro cp hcp pat hpat2
    obtain ⟨hm1, hm2⟩ := hAll cp hcp pat hpat2
    have ha := hpat pat (List.mem_flatten.mpr ⟨cp.2, List.mem_map_of_mem _ hcp, hpat2⟩)
    have hdist : pyLower (t.take 2000 ++ "\n... (truncated)".toList)
        = pyLower (t.take 2000) ++ pyLower "\n... (truncated)".toList := by
      unfold pyLower
      rw [List.map_append]
    rw [hdist]
    exact containsSub_append_no_head rfl hm2 ha hm1
  refine Eq.trans (analyze_eval rfl ?_ ?_ hfe) ?_
  · rw [hgl]
    rfl
  · rw [hgl]
    exact hex
  · rw [hgl]

/-- Witness: over a 2500-character remote log of x characters (no pattern
occurs in the first 2000 characters), the analyzer reports no common errors
and includes only the 2000-character truncation plus marker. -/
theorem c9_truncated_analysis_witness :
    analyze_build_errors "j".toList cfgOK (netLogs (List.replicate 2500 'x'))
      = (PyOutcome.ret ("No common errors detected in '".toList ++ "j".toList
          ++ "' build logs.\n\nLogs:\n".toList
          ++ ((List.replicate 2500 'x').take 2000 ++ "\n... (truncated)".toList)),
         [⟨Method.get, cfgOK.baseUrl ++ "/job/".toList ++ "j".toList
             ++ "/lastBuild/consoleText".toList, none⟩]) := by
  have htake : (List.replicate 2500 'x').take 2000 = List.replicate 2000 'x' := by
    rw [List.take_replicate]
    rfl
  refine c9_truncated_analysis_amended (List.replicate 2500 'x') ?_ ?_ ?_
  · rw [List.length_replicate]
    omega
  · intro p hp
    have htab : ∀ q ∈ (error_patterns.map (fun cp => cp.2)).flatten,
        pyLower q ≠ [] ∧ 'x' ∉ pyLower q := by decide
    obtain ⟨h1, h2⟩ := htab p hp
    have hlow : pyLower ((List.replicate 2500 'x').take 2000)
        = List.replicate 2000 'x' := by
      rw [htake]
      unfold pyLower
      rw [List.map_replicate]
      rfl
    rw [hlow]
    exact containsSub_replicate h1 h2 2000
  · rw [htake]
    exact containsSub_replicate (by decide) (by decide) 2000

theorem startsWithL_refl (l : Str) : startsWithL l l = true := by
  have h := startsWithL_self_append l []
  rwa [List.append_nil] at h

/-- The remote console log refuting claim C9 as stated: longer than 2000
characters, its only category-matching substring (FAILED) entirely beyond
position 2000, but its first 2000 characters contain the literal header
text "Build logs for". -/
def remoteLogC9 : Str :=
  "Build logs for".toList ++ (List.replicate 2000 'x' ++ "FAILED".toList)

theorem remoteLogC9_take : remoteLogC9.take 2000
    = "Build logs for".toList ++ List.replicate 1986 'x' := by
  unfold remoteLogC9
  rw [List.take_append_eq_append_take]
  rw [show ("Build logs for".toList).length = 14 from rfl]
  rw [List.take_of_length_le (by rw [show ("Build logs for".toList).length = 14 from rfl]; omega)]
  rw [List.take_append_eq_append_take, List.take_replicate, List.length_replicate]
  norm_num

theorem remoteLogC9_drop : remoteLogC9.drop 2000
    = List.replicate 14 'x' ++ "FAILED".toList := by
  unfold remoteLogC9
  rw [List.drop_append_eq_append_drop]
  rw [show ("Build logs for".toList).length = 14 from rfl]
  rw [List.drop_of_length_le (by rw [show ("Build logs for".toList).length = 14 from rfl]; omega)]
  rw [List.drop_append_eq_append_drop, List.drop_replicate, List.length_replicate]
  norm_num

/-- Counterexample to claim C9 as stated.  remoteLogC9 is longer than 2000
characters and its only category-matching substring (FAILED) starts after
position 2000, so the claim asserts the analyzer reports no common errors
AND includes the truncated logs (first 2000 characters + marker) in its
output.  The analyzer does report no common errors, but because the log's
first 2000 characters contain the literal text "Build logs for", the
analyzer's re-extraction (split on "Build logs for", then on the first
newline) cuts the logs down to the empty string: the output does not
include the truncated logs. -/
theorem c9_truncated_analysis_counterexample :
    2000 < remoteLogC9.length
    ∧ (∀ p ∈ (error_patterns.map (fun cp => cp.2)).flatten,
        containsSub (pyLower p) (pyLower (remoteLogC9.take 2000)) = false)
    ∧ containsSub "FAILED".toList (remoteLogC9.drop 2000) = true
    ∧ analyze_build_errors "j".toList cfgOK (netLogs remoteLogC9)
        = (PyOutcome.ret ("No common errors detected in '".toList ++ "j".toList
            ++ "' build logs.\n\nLogs:\n".toList ++ []),
           [⟨Method.get, cfgOK.baseUrl ++ "/job/".toList ++ "j".toList
               ++ "/lastBuild/consoleText".toList, none⟩])
    ∧ (analyze_build_errors "j".toList cfgOK (netLogs remoteLogC9)).1
        ≠ PyOutcome.ret ("No common errors detected in '".toList ++ "j".toList
            ++ "' build logs.\n\nLogs:\n".toList
            ++ (remoteLogC9.take 2000 ++ "\n... (truncated)".toList)) := by
  have hlenC : 2000 < remoteLogC9.length := by
    unfold remoteLogC9
    rw [List.length_append, List.length_append, List.length_replicate]
    rw [show ("Build logs for".toList).length = 14 from rfl,
        show ("FAILED".toList).length = 6 from rfl]
    omega
  have hglC : get_build_logs "j".toList none cfgOK (netLogs remoteLogC9)
      = ("Build logs for '".toList ++ "j".toList ++ "':\n".toList
          ++ (("Build logs for".toList ++ List.replicate 1986 'x')
              ++ "\n... (truncated)".toList),
         [⟨Method.get, cfgOK.baseUrl ++ "/job/".toList ++ "j".toList
             ++ "/lastBuild/consoleText".toList, none⟩]) := by
    show ("Build logs for '".toList ++ "j".toList ++ "':\n".toList
          ++ (if 2000 < remoteLogC9.length then
                remoteLogC9.take 2000 ++ "\n... (truncated)".toList
              else remoteLogC9),
         [(⟨Method.get, cfgOK.baseUrl ++ "/job/".toList ++ "j".toList
             ++ "/lastBuild/consoleText".toList, none⟩ : Request)]) = _
    rw [if_pos hlenC, remoteLogC9_take]
  have hrestC : findSub "Build logs for".toList
      (List.replicate 1986 'x' ++ "\n... (truncated)".toList) = none := by
    refine containsSub_findSub_none _ ?_
    exact containsSub_append_no_head rfl (by decide)
      (containsSub_replicate (by decide) (by decide) 1986) (by decide)
  have h1 : pysplit "Build logs for".toList
      ("Build logs for '".toList ++ "j".toList ++ "':\n".toList
        ++ (("Build logs for".toList ++ List.replicate 1986 'x')
            ++ "\n... (truncated)".toList))
      = [] :: pysplit "Build logs for".toList
          (" 'j':\n".toList ++ (("Build logs for".toList ++ List.replicate 1986 'x')
            ++ "\n... (truncated)".toList)) := by
    have hf0 : findSub "Build logs for".toList
        ("Build logs for '".toList ++ "j".toList ++ "':\n".toList
          ++ (("Build logs for".toList ++ List.replicate 1986 'x')
              ++ "\n... (truncated)".toList)) = some 0 := rfl
    exact pysplit_step hf0 rfl
  have h2 : pysplit "Build logs for".toList
      (" 'j':\n".toList ++ (("Build logs for".toList ++ List.replicate 1986 'x')
        ++ "\n... (truncated)".toList))
      = " 'j':\n".toList :: pysplit "Build logs for".toList
          (List.replicate 1986 'x' ++ "\n... (truncated)".toList) := by
    have hf6 : findSub "Build logs for".toList
        (" 'j':\n".toList ++ (("Build logs for".toList ++ List.replicate 1986 'x')
          ++ "\n... (truncated)".toList)) = some 6 := rfl
    exact pysplit_step hf6 rfl
  have h3 : pysplit "Build logs for".toList
      (List.replicate 1986 'x' ++ "\n... (truncated)".toList)
      = [List.replicate 1986 'x' ++ "\n... (truncated)".toList] :=
    pysplit_last hrestC rfl
  have hexC : extractLogs ("Build logs for '".toList ++ "j".toList ++ "':\n".toList
      ++ (("Build logs for".toList ++ List.replicate 1986 'x')
          ++ "\n... (truncated)".toList)) = some [] := by
    unfold extractLogs
    rw [h1, h2, h3]
    rfl
  have hresC : analyze_build_errors "j".toList cfgOK (netLogs remoteLogC9)
      = (PyOutcome.ret ("No common errors detected in '".toList ++ "j".toList
          ++ "' build logs.\n\nLogs:\n".toList ++ []),
         [⟨Method.get, cfgOK.baseUrl ++ "/job/".toList ++ "j".toList
             ++ "/lastBuild/consoleText".toList, none⟩]) := by
    have hfeC : found_errors_of ([] : Str) = [] := by decide
    refine Eq.trans (analyze_eval rfl ?_ ?_ hfeC) ?_
    · rw [hglC]
      rfl
    · rw [hglC]
      exact hexC
    · rw [hglC]
  refine ⟨hlenC, ?_, ?_, hresC, ?_⟩
  · intro p hp
    have htab : ∀ q ∈ (error_patterns.map (fun cp => cp.2)).flatten,
        pyLower q ≠ [] ∧ 'x' ∉ pyLower q
        ∧ containsSub (pyLower q) (pyLower "Build logs for".toList) = false := by
      decide
    obtain ⟨h1x, h2x, h3x⟩ := htab p hp
    have hdist : pyLower ("Build logs for".toList ++ List.replicate 1986 'x')
        = pyLower "Build logs for".toList ++ List.replicate 1986 'x' := by
      unfold pyLower
      rw [List.map_append, List.map_replicate]
      rfl
    rw [remoteLogC9_take, hdist]
    exact containsSub_append_no_head rfl h2x h3x
      (containsSub_replicate h1x h2x 1986)
  · rw [remoteLogC9_drop]
    exact containsSub_of_suffix_startsWith _
      (List.suffix_append _ _) (startsWithL_refl _)
  · rw [hresC]
    intro heq
    have h' := congrArg (fun o => match o with
      | PyOutcome.ret s => s.length
      | PyOutcome.raised => 0) heq
    simp only [List.length_append, remoteLogC9_take, List.length_replicate,
      List.length_nil] at h'
    rw [show ("Build logs for".toList).length = 14 from rfl] at h'
    omega
